import Mathlib

/-!
Shallow embedding of the repository's complex-number value type
(src/math/complex_numbers.cpp) and of the Kirchhoff voltage-law check
(physics::kirchhoff_law::voltage_law_satisfied), with theorems settling
the specification claims. The C++ `double` fields are modelled as real
numbers; the library calls std::cos, std::sin, std::sqrt and std::atan2
are modelled by the corresponding real functions.
-/

namespace ComplexNumbers

/-- The class Complex of complex_numbers.cpp: two double data members
`real` and `imaginary`, modelled over ℝ. -/
structure Complex where
  real : ℝ
  imaginary : ℝ

/-- The constructor Complex(x, y, is_polar). With the flag false it assigns
the fields directly; with the flag true it converts polar form to
rectangular form via real = x·cos y, imaginary = x·sin y. -/
noncomputable def Complex.make (x y : ℝ) (flag : Bool) : Complex :=
  if flag then ⟨x * Real.cos y, x * Real.sin y⟩ else ⟨x, y⟩

/-- Rectangular construction, the spec name for the constructor with the
polar flag false. -/
noncomputable def fromRectangular (x y : ℝ) : Complex :=
  Complex.make x y false

/-- Polar construction, the spec name for the constructor with the polar
flag true. -/
noncomputable def fromPolar (m a : ℝ) : Complex :=
  Complex.make m a true

/-- Complex::abs, the modulus: sqrt(real·real + imaginary·imaginary). -/
noncomputable def Complex.abs (a : Complex) : ℝ :=
  Real.sqrt (a.real * a.real + a.imaginary * a.imaginary)

/-- The two-argument arctangent std::atan2(y, x), per its standard
convention: arctan(y/x) corrected by quadrant, with the axis cases
x = 0 handled by sign of y. -/
noncomputable def atan2 (y x : ℝ) : ℝ :=
  if 0 < x then Real.arctan (y / x)
  else if x < 0 then
    (if 0 ≤ y then Real.arctan (y / x) + Real.pi
     else Real.arctan (y / x) - Real.pi)
  else
    (if 0 < y then Real.pi / 2 else if y < 0 then -(Real.pi / 2) else 0)

/-- Complex::arg: std::atan2(imaginary, real). -/
noncomputable def Complex.arg (a : Complex) : ℝ :=
  atan2 a.imaginary a.real

/-- Complex::operator+, componentwise addition. -/
def Complex.add (a b : Complex) : Complex :=
  ⟨a.real + b.real, a.imaginary + b.imaginary⟩

/-- Complex::operator-, componentwise subtraction. -/
def Complex.sub (a b : Complex) : Complex :=
  ⟨a.real - b.real, a.imaginary - b.imaginary⟩

/-- Complex::operator*: (r1·r2 − i1·i2, r1·i2 + i1·r2). -/
def Complex.mul (a b : Complex) : Complex :=
  ⟨a.real * b.real - a.imaginary * b.imaginary,
   a.real * b.imaginary + a.imaginary * b.real⟩

/-- Complex::operator~, the conjugate: (real, −imaginary). -/
def Complex.conj (a : Complex) : Complex :=
  ⟨a.real, -a.imaginary⟩

/-- The single error kind of the component: the std::invalid_argument
thrown by Complex::operator/ on a zero divisor, named DivisionByZero as
in the spec. -/
inductive ComplexError where
  | DivisionByZero
deriving DecidableEq

/-- Complex::operator/: compute the denominator |b|², fail with
DivisionByZero when it is zero, otherwise multiply by the conjugate and
divide each component by the denominator. -/
noncomputable def Complex.div (a b : Complex) : Except ComplexError Complex :=
  let denominator := b.real * b.real + b.imaginary * b.imaginary
  if denominator = 0 then
    Except.error ComplexError.DivisionByZero
  else
    let numerator := a.mul b.conj
    Except.ok ⟨numerator.real / denominator, numerator.imaginary / denominator⟩

/-- The free operator==: exact equality of both components. -/
def Complex.eq (a b : Complex) : Prop :=
  a.real = b.real ∧ a.imaginary = b.imaginary

/-- The stream insertion operator<< on Complex, parameterised by the
rendering f of a double by the stream: prints the real part, then a sign
chosen by the sign of the imaginary part, then the absolute value of the
imaginary part, wrapped as (R ± Ii). -/
noncomputable def fmtComplex (f : ℝ → String) (a : Complex) : String :=
  "(" ++ f a.real ++
    (if a.imaginary < 0 then " - " ++ f (-a.imaginary)
     else " + " ++ f a.imaginary) ++ "i)"

end ComplexNumbers

namespace physics

namespace kirchhoff_law

/-- The voltage_law_satisfied function of the Kirchhoff voltage-law file:
accumulate the voltages starting from 0 (std::accumulate is a left fold)
and compare the absolute value of the sum against 1e-6. -/
def voltage_law_satisfied (voltages : List ℝ) : Prop :=
  |voltages.foldl (fun s v => s + v) 0| < (1e-6 : ℝ)

end kirchhoff_law

end physics

namespace ComplexNumbers

/-- Left fold of addition from an initial value is the initial value plus
the list sum. -/
theorem foldl_add_eq_add_sum (l : List ℝ) (init : ℝ) :
    l.foldl (fun s v => s + v) init = init + l.sum := by
  induction l generalizing init with
  | nil => simp
  | cons x xs ih => simp [List.foldl_cons, ih, add_assoc]

/-- C3: multiply returns (a.real·b.real − a.imag·b.imag,
a.real·b.imag + a.imag·b.real); in particular
multiply(fromRectangular(1,2), fromRectangular(3,4)) = fromRectangular(-5,10). -/
theorem multiply_spec :
    (∀ a b : Complex,
      (a.mul b).real = a.real * b.real - a.imaginary * b.imaginary ∧
      (a.mul b).imaginary = a.real * b.imaginary + a.imaginary * b.real) ∧
    (fromRectangular 1 2).mul (fromRectangular 3 4) = fromRectangular (-5) 10 := by
  refine ⟨fun a b => ⟨rfl, rfl⟩, ?_⟩
  show (Complex.mk ((1:ℝ) * 3 - 2 * 4) ((1:ℝ) * 4 + 2 * 3)) = Complex.mk (-5) 10
  norm_num

/-- C5: the magnitude is sqrt(real² + imaginary²), never negative, total;
fromRectangular(3,4) has magnitude exactly 5. -/
theorem magnitude_spec :
    (∀ a : Complex,
      a.abs = Real.sqrt (a.real * a.real + a.imaginary * a.imaginary)) ∧
    (∀ a : Complex, 0 ≤ a.abs) ∧
    (fromRectangular 3 4).abs = 5 := by
  refine ⟨fun a => rfl, fun a => Real.sqrt_nonneg _, ?_⟩
  show Real.sqrt ((3 : ℝ) * 3 + 4 * 4) = 5
  have h : (3 : ℝ) * 3 + 4 * 4 = 5 ^ 2 := by norm_num
  rw [h, Real.sqrt_sq (by norm_num)]

/-- C7: the conjugate is (a.real, −a.imag) and conjugation is an
involution under the equality of the type. -/
theorem conjugate_spec :
    (∀ a : Complex, a.conj = ⟨a.real, -a.imaginary⟩) ∧
    (∀ a : Complex, (a.conj.conj).eq a) := by
  refine ⟨fun a => rfl, fun a => ⟨rfl, neg_neg _⟩⟩

/-- C8: operator== holds exactly when both components are exactly equal,
that is exactly when the two values are equal as pairs; there is no
tolerance, so distinct values a hair apart compare unequal. -/
theorem equality_spec :
    (∀ a b : Complex, a.eq b ↔ a = b) ∧
    ¬(Complex.mk 0 0).eq (Complex.mk (1 / 1000000000) 0) := by
  constructor
  · intro a b
    constructor
    · rintro ⟨h1, h2⟩
      cases a; cases b
      simp_all
    · rintro rfl
      exact ⟨rfl, rfl⟩
  · rintro ⟨h, -⟩
    norm_num at h

/-- C1: division fails with DivisionByZero exactly when the denominator
b.real² + b.imag² is zero, which over the reals happens exactly when b is
the zero value; when the denominator is nonzero an ordinary value is
returned, so the guard fires before any division and no quotient stands
in for the error. -/
theorem divide_by_zero_spec :
    (∀ a b : Complex,
      a.div b = Except.error ComplexError.DivisionByZero ↔
        b.real * b.real + b.imaginary * b.imaginary = 0) ∧
    (∀ b : Complex,
      b.real * b.real + b.imaginary * b.imaginary = 0 ↔ b = ⟨0, 0⟩) ∧
    (∀ a b : Complex,
      b.real * b.real + b.imaginary * b.imaginary ≠ 0 →
        ∃ c, a.div b = Except.ok c) := by
  refine ⟨fun a b => ?_, fun b => ?_, fun a b hd => ?_⟩
  · by_cases hd : b.real * b.real + b.imaginary * b.imaginary = 0 <;>
      simp [Complex.div, hd]
  · constructor
    · intro h
      have h1 : b.real = 0 := by nlinarith [mul_self_nonneg b.real, mul_self_nonneg b.imaginary]
      have h2 : b.imaginary = 0 := by nlinarith [mul_self_nonneg b.real, mul_self_nonneg b.imaginary]
      cases b
      simp_all
    · rintro rfl
      norm_num
  · exact ⟨⟨(a.mul b.conj).real / (b.real * b.real + b.imaginary * b.imaginary),
            (a.mul b.conj).imaginary / (b.real * b.real + b.imaginary * b.imaginary)⟩,
           by simp [Complex.div, hd]⟩

/-- C1 witness: divide(fromRectangular(1,1), fromRectangular(0,0)) signals
DivisionByZero, and a nonzero divisor yields an ordinary result. -/
theorem divide_by_zero_spec_witness :
    ((Complex.mk 1 1).div ⟨0, 0⟩ = Except.error ComplexError.DivisionByZero) ∧
    ((0 : ℝ) * 0 + 1 * 1 ≠ 0 ∧ ∃ c, (Complex.mk 1 0).div ⟨0, 1⟩ = Except.ok c) :=
  ⟨(divide_by_zero_spec.1 ⟨1, 1⟩ ⟨0, 0⟩).mpr (by norm_num),
   by norm_num, divide_by_zero_spec.2.2 ⟨1, 0⟩ ⟨0, 1⟩ (by norm_num)⟩

/-- C2: on a nonzero divisor, divide returns the components of
multiply(a, conjugate(b)) each divided by the denominator; in particular
divide(fromRectangular(1,0), fromRectangular(0,1)) = fromRectangular(0,-1). -/
theorem divide_spec :
    (∀ a b : Complex, b.real * b.real + b.imaginary * b.imaginary ≠ 0 →
      a.div b = Except.ok
        ⟨(a.mul b.conj).real / (b.real * b.real + b.imaginary * b.imaginary),
         (a.mul b.conj).imaginary / (b.real * b.real + b.imaginary * b.imaginary)⟩) ∧
    (fromRectangular 1 0).div (fromRectangular 0 1) =
      Except.ok (fromRectangular 0 (-1)) := by
  constructor
  · intro a b hd
    simp [Complex.div, hd]
  · have h : (fromRectangular 1 0).div (fromRectangular 0 1) =
        Except.ok ⟨(0 * 0 + 1 * 1 - (1 * 1 + 0 * (-0))) / (0 * 0 + 1 * 1),
                   (1 * (-1) + 0 * 0) / (0 * 0 + 1 * 1)⟩ := by
      show Complex.div ⟨1, 0⟩ ⟨0, 1⟩ = _
      rw [Complex.div]
      norm_num [Complex.mul, Complex.conj]
    rw [h]
    show Except.ok _ = Except.ok (Complex.mk 0 (-1))
    norm_num

/-- C2 witness: the division formula instantiated at a = (1,0), b = (0,1),
whose denominator 0·0 + 1·1 is nonzero. -/
theorem divide_spec_witness :
    ((0 : ℝ) * 0 + 1 * 1 ≠ 0) ∧
    (Complex.mk 1 0).div ⟨0, 1⟩ = Except.ok
      ⟨((Complex.mk 1 0).mul (Complex.mk 0 1).conj).real / ((0 : ℝ) * 0 + 1 * 1),
       ((Complex.mk 1 0).mul (Complex.mk 0 1).conj).imaginary / ((0 : ℝ) * 0 + 1 * 1)⟩ :=
  ⟨by norm_num, divide_spec.1 ⟨1, 0⟩ ⟨0, 1⟩ (by norm_num)⟩

/-- C4: polar construction yields (m·cos θ, m·sin θ) for every magnitude m,
with no restriction or normalization of a negative magnitude, and the
resulting modulus is |m|, so the magnitude is carried through the
transform. -/
theorem polar_construction_spec :
    (∀ m θ : ℝ, fromPolar m θ = ⟨m * Real.cos θ, m * Real.sin θ⟩) ∧
    (∀ m θ : ℝ, (fromPolar m θ).abs = |m|) := by
  have hdef : ∀ m θ : ℝ, fromPolar m θ = ⟨m * Real.cos θ, m * Real.sin θ⟩ :=
    fun m θ => rfl
  refine ⟨hdef, fun m θ => ?_⟩
  rw [hdef]
  show Real.sqrt (m * Real.cos θ * (m * Real.cos θ) +
      m * Real.sin θ * (m * Real.sin θ)) = |m|
  have h : m * Real.cos θ * (m * Real.cos θ) +
      m * Real.sin θ * (m * Real.sin θ) = m ^ 2 := by
    have hs := Real.sin_sq_add_cos_sq θ
    nlinarith [hs]
  rw [h, Real.sqrt_sq_eq_abs]

/-- Arctangent of a negative argument is negative. -/
theorem arctan_neg_of_neg {x : ℝ} (h : x < 0) : Real.arctan x < 0 := by
  have h0 := Real.arctan_strictMono h
  rwa [Real.arctan_zero] at h0

/-- Arctangent of a positive argument is positive. -/
theorem arctan_pos_of_pos {x : ℝ} (h : 0 < x) : 0 < Real.arctan x := by
  have h0 := Real.arctan_strictMono h
  rwa [Real.arctan_zero] at h0

/-- The two-argument arctangent always lands in the interval (−π, π]. -/
theorem atan2_mem_Ioc (y x : ℝ) : atan2 y x ∈ Set.Ioc (-Real.pi) Real.pi := by
  have hpi := Real.pi_pos
  have h1 := Real.arctan_lt_pi_div_two (y / x)
  have h2 := Real.neg_pi_div_two_lt_arctan (y / x)
  unfold atan2
  split
  · exact ⟨by linarith, by linarith⟩
  · split
    · next hx0 hxneg =>
      split
      · next hy =>
        have h3 : Real.arctan (y / x) ≤ 0 := by
          rcases eq_or_lt_of_le hy with h | h

          · rw [← h, zero_div, Real.arctan_zero]
          · exact le_of_lt (arctan_neg_of_neg (div_neg_of_pos_of_neg h hxneg))
        exact ⟨by linarith, by linarith⟩
      · next hy =>
        have hyx : 0 < y / x := div_pos_of_neg_of_neg (lt_of_not_le hy) hxneg
        have h3 : 0 < Real.arctan (y / x) := arctan_pos_of_pos hyx
        exact ⟨by linarith, by linarith⟩
    · split
      · exact ⟨by linarith, by linarith⟩
      · split
        · exact ⟨by linarith, by linarith⟩
        · exact ⟨by linarith, by linarith⟩

/-- C6: the argument is std::atan2(imaginary, real); it always lies in
(−π, π], and the standard atan2 sign conventions hold at the axis
boundaries: 0 on the positive real axis, π on the negative real axis,
π/2 on the positive imaginary axis and −π/2 on the negative imaginary
axis. -/
theorem argument_spec :
    (∀ a : Complex, a.arg = atan2 a.imaginary a.real) ∧
    (∀ a : Complex, a.arg ∈ Set.Ioc (-Real.pi) Real.pi) ∧
    (∀ x : ℝ, 0 < x → atan2 0 x = 0) ∧
    (∀ x : ℝ, x < 0 → atan2 0 x = Real.pi) ∧
    (∀ y : ℝ, 0 < y → atan2 y 0 = Real.pi / 2) ∧
    (∀ y : ℝ, y < 0 → atan2 y 0 = -(Real.pi / 2)) := by
  refine ⟨fun a => rfl, fun a => atan2_mem_Ioc a.imaginary a.real,
    fun x hx => ?_, fun x hx => ?_, fun y hy => ?_, fun y hy => ?_⟩
  · rw [atan2, if_pos hx, zero_div, Real.arctan_zero]
  · rw [atan2, if_neg (by linarith), if_pos hx, if_pos le_rfl, zero_div,
      Real.arctan_zero, zero_add]
  · rw [atan2, if_neg (lt_irrefl 0), if_neg (lt_irrefl 0), if_pos hy]
  · rw [atan2, if_neg (lt_irrefl 0), if_neg (lt_irrefl 0),
      if_neg (by linarith), if_pos hy]

/-- C6 witness: the range fact at (1,1) and the four axis conventions at
concrete points on each axis. -/
theorem argument_spec_witness :
    (Complex.mk 1 1).arg ∈ Set.Ioc (-Real.pi) Real.pi ∧
    atan2 0 1 = 0 ∧ atan2 0 (-1) = Real.pi ∧
    atan2 1 0 = Real.pi / 2 ∧ atan2 (-1) 0 = -(Real.pi / 2) :=
  ⟨argument_spec.2.1 ⟨1, 1⟩,
   argument_spec.2.2.1 1 one_pos,
   argument_spec.2.2.2.1 (-1) (by norm_num),
   argument_spec.2.2.2.2.1 1 one_pos,
   argument_spec.2.2.2.2.2 (-1) (by norm_num)⟩

/-- C9: the formatter prints (R - Ii) with the magnitude of the imaginary
part when the imaginary part is negative, and (R + Ii) otherwise; any
renderer printing 3 as the digit 3 and 4 as the digit 4 produces exactly
the strings (3 - 4i) and (3 + 4i) on those inputs. -/
theorem formatting_spec :
    (∀ (f : ℝ → String) (a : Complex), a.imaginary < 0 →
      fmtComplex f a = "(" ++ f a.real ++ " - " ++ f (-a.imaginary) ++ "i)") ∧
    (∀ (f : ℝ → String) (a : Complex), 0 ≤ a.imaginary →
      fmtComplex f a = "(" ++ f a.real ++ " + " ++ f a.imaginary ++ "i)") ∧
    (∀ f : ℝ → String, f 3 = "3" → f 4 = "4" →
      fmtComplex f ⟨3, -4⟩ = "(3 - 4i)" ∧ fmtComplex f ⟨3, 4⟩ = "(3 + 4i)") := by
  have hneg : ∀ (f : ℝ → String) (a : Complex), a.imaginary < 0 →
      fmtComplex f a = "(" ++ f a.real ++ " - " ++ f (-a.imaginary) ++ "i)" := by
    intro f a h
    rw [fmtComplex, if_pos h]
    simp [String.append_assoc]
  have hpos : ∀ (f : ℝ → String) (a : Complex), 0 ≤ a.imaginary →
      fmtComplex f a = "(" ++ f a.real ++ " + " ++ f a.imaginary ++ "i)" := by
    intro f a h
    rw [fmtComplex, if_neg (not_lt.mpr h)]
    simp [String.append_assoc]
  refine ⟨hneg, hpos, fun f h3 h4 => ⟨?_, ?_⟩⟩
  · rw [hneg f ⟨3, -4⟩ (by norm_num)]
    show "(" ++ f 3 ++ " - " ++ f (-(-4)) ++ "i)" = "(3 - 4i)"
    rw [show (-(-4) : ℝ) = 4 by norm_num, h3, h4]
    decide
  · rw [hpos f ⟨3, 4⟩ (by norm_num)]
    show "(" ++ f 3 ++ " + " ++ f 4 ++ "i)" = "(3 + 4i)"
    rw [h3, h4]
    decide

/-- C9 witness: a concrete renderer sending 3 to the digit 3 and everything
else to the digit 4 produces exactly (3 - 4i) and (3 + 4i). -/
theorem formatting_spec_witness :
    fmtComplex (fun x => if x = 3 then "3" else "4") ⟨3, -4⟩ = "(3 - 4i)" ∧
    fmtComplex (fun x => if x = 3 then "3" else "4") ⟨3, 4⟩ = "(3 + 4i)" :=
  formatting_spec.2.2 (fun x => if x = 3 then "3" else "4")
    (by norm_num) (by norm_num)

end ComplexNumbers

namespace physics

namespace kirchhoff_law

/-- C10: the voltage-law check holds exactly when the absolute value of
the sum of the voltages is strictly below the fixed tolerance 1e-6; it
holds for the empty list, whose sum is zero, and it agrees with the two
self-tests of the source file. -/
theorem voltage_law_spec :
    (∀ vs : List ℝ, voltage_law_satisfied vs ↔ |vs.sum| < (1e-6 : ℝ)) ∧
    voltage_law_satisfied [] ∧
    voltage_law_satisfied [10, -4, -6] ∧
    ¬voltage_law_satisfied [12, -5, -4] := by
  have hiff : ∀ vs : List ℝ, voltage_law_satisfied vs ↔ |vs.sum| < (1e-6 : ℝ) := by
    intro vs
    rw [voltage_law_satisfied, ComplexNumbers.foldl_add_eq_add_sum, zero_add]
  refine ⟨hiff, ?_, ?_, ?_⟩
  · rw [hiff]
    norm_num
  · rw [hiff]
    norm_num
  · rw [hiff]
    norm_num

end kirchhoff_law

end physics
